import Mathlib

/-!
Verification of the hybrid ranking engine of `src/rag_search_txt.py`.

The Python program combines a BM25 keyword score with a dense
vector-similarity score.  Every numeric computation of the source is
embedded over `ℚ`; the transcendental `math.log` used inside BM25's idf
is abstracted as an explicit strictly-monotone parameter `rlog : ℚ → ℚ`
passed to every definition that needs it.  External collaborators
(ChromaDB's `collection.get` / `collection.query`, the Gemini embedding
provider) are modelled as the fields of `SearchInputs`: their replies
are inputs of the ranking pass, exactly the data the Python code reads
from them.  The Python `IndexError` raised by `query.split()[0]` on a
whitespace-only query is modelled with `Except`.
-/

/-- Python `str.split()` (no argument): split on runs of whitespace,
discarding empty pieces.  `acc` holds the characters of the current word
in reverse order. -/
def pySplitAux : List Char → List Char → List String
  | [], acc => if acc.isEmpty then [] else [String.mk acc.reverse]
  | c :: cs, acc =>
      if c.isWhitespace then
        if acc.isEmpty then pySplitAux cs []
        else String.mk acc.reverse :: pySplitAux cs []
      else pySplitAux cs (c :: acc)

/-- Python `s.split()` on a string. -/
def pySplit (s : String) : List String :=
  pySplitAux s.data []

/-- Python `needle in hay` on strings: literal substring containment
(`"" in s` is `True`, as in Python). -/
def strIn (needle hay : String) : Bool :=
  hay.data.tails.any (fun t => needle.data.isPrefixOf t)

/-- `simple_tokenize` (src/rag_search_txt.py lines 40-42):
`text.lower().split()`.  `str.lower` is modelled per character with
`Char.toLower` (the claims only exercise ASCII and Korean text, and
Hangul has no letter case). -/
def simple_tokenize (text : String) : List String :=
  pySplit (String.mk (text.data.map Char.toLower))

/-- Python truthiness test `not query_embedding`
(src/rag_search_txt.py line 80): `None` and the empty list are falsy. -/
def pyFalsy : Option (List ℚ) → Bool
  | none => true
  | some v => v.isEmpty

/-- Python `dict(zip(...)).get(key, 0)` on an association list built by
insertion with overwrite: the last binding of a key wins, absent keys
default to `0` (src/rag_search_txt.py line 115). -/
def dictGet (m : List (String × ℚ)) (k : String) : ℚ :=
  match m.reverse.find? (fun p => p.1 == k) with
  | some p => p.2
  | none => 0

/-- `np.max` over a score vector (src/rag_search_txt.py lines 73-74).
NumPy raises on an empty array; the pipeline only applies this to one
score per document of a corpus already checked non-empty, so the `[]`
case is unreachable there (`0` is a junk value). -/
def npMax : List ℚ → ℚ
  | [] => 0
  | a :: t => t.foldl max a

/-- Python `max(distances) if distances else 1`
(src/rag_search_txt.py line 99). -/
def maxDistance : List ℚ → ℚ
  | [] => 1
  | a :: t => t.foldl max a

/-- Sparse-score normalization (src/rag_search_txt.py lines 72-74):
`if np.max(bm25_scores) > 0: bm25_scores = bm25_scores / np.max(...)`. -/
def normalizeSparse (scores : List ℚ) : List ℚ :=
  if 0 < npMax scores then scores.map (fun x => x / npMax scores) else scores

/-!
BM25Okapi of the `rank_bm25` library, with its default parameters
`k1 = 1.5`, `b = 0.75`, `epsilon = 0.25`, as called by `hybrid_search`
(src/rag_search_txt.py lines 66-70).  A corpus is a list of
token-sequences.  Note: Python raises `ZeroDivisionError` in
`_calc_idf` when the corpus holds no token at all (`len(self.idf) = 0`);
over `ℚ` that division yields `0`.  No claim exercises that input.
-/

/-- `self.avgdl`: total token count divided by corpus size. -/
def bm25AvgDl (corpus : List (List String)) : ℚ :=
  ((corpus.map (fun d => ((d.length : ℚ)))).sum) / (corpus.length : ℚ)

/-- `nd[w]`: number of documents containing the token `w`. -/
def bm25Nd (corpus : List (List String)) (w : String) : ℕ :=
  corpus.countP (fun d => d.contains w)

/-- The keys of `self.idf`: every distinct token of the corpus. -/
def bm25Vocab (corpus : List (List String)) : List String :=
  corpus.flatten.dedup

/-- The raw idf of `_calc_idf`:
`log(corpus_size - freq + 0.5) - log(freq + 0.5)`. -/
def bm25IdfRaw (rlog : ℚ → ℚ) (corpus : List (List String)) (w : String) : ℚ :=
  rlog ((corpus.length : ℚ) - (bm25Nd corpus w : ℚ) + 1/2)
    - rlog ((bm25Nd corpus w : ℚ) + 1/2)

/-- `self.average_idf`: mean of the raw idfs over the vocabulary. -/
def bm25AvgIdf (rlog : ℚ → ℚ) (corpus : List (List String)) : ℚ :=
  ((bm25Vocab corpus).map (bm25IdfRaw rlog corpus)).sum
    / ((bm25Vocab corpus).length : ℚ)

/-- `self.idf[w]` after `_calc_idf`: negative raw idfs are replaced by
`epsilon * average_idf` with `epsilon = 0.25`. -/
def bm25Idf (rlog : ℚ → ℚ) (corpus : List (List String)) (w : String) : ℚ :=
  if bm25IdfRaw rlog corpus w < 0 then (1/4) * bm25AvgIdf rlog corpus
  else bm25IdfRaw rlog corpus w

/-- `(self.idf.get(q) or 0)` inside `get_scores`: tokens outside the
vocabulary contribute idf `0` (and `x or 0` maps the value `0.0` to
`0`, the same number). -/
def bm25IdfOrZero (rlog : ℚ → ℚ) (corpus : List (List String)) (w : String) : ℚ :=
  if (bm25Vocab corpus).contains w then bm25Idf rlog corpus w else 0

/-- One document's BM25 score of `get_scores`:
`sum over q of idf(q) * (f*(k1+1)) / (f + k1*(1 - b + b*dl/avgdl))`
with `f = (doc.get(q) or 0)` the token count of `q` in the document. -/
def bm25DocScore (rlog : ℚ → ℚ) (corpus : List (List String))
    (q : List String) (d : List String) : ℚ :=
  (q.map (fun t =>
    bm25IdfOrZero rlog corpus t *
      (((d.count t : ℚ) * (3/2 + 1)) /
        ((d.count t : ℚ) + (3/2) * (1 - 3/4 + (3/4) * (d.length : ℚ) / bm25AvgDl corpus))))).sum

/-- `bm25.get_scores(tokenized_query)`: one score per corpus document,
in corpus order. -/
def bm25GetScores (rlog : ℚ → ℚ) (corpus : List (List String))
    (q : List String) : List ℚ :=
  corpus.map (bm25DocScore rlog corpus q)

/-!  The hybrid search pipeline (src/rag_search_txt.py lines 47-131). -/

/-- The data `hybrid_search` reads from its collaborators:
`docs`/`ids` are `collection.get()['documents']`/`['ids']` (ChromaDB
keeps them aligned: same length, `ids` pairwise distinct),
`queryEmbedding` is the reply of `get_query_embedding` (`none` models a
provider failure), and `vectorIds`/`distances` are
`collection.query(...)['ids'][0]`/`['distances'][0]`. -/
structure SearchInputs where
  docs : List String
  ids : List String
  queryEmbedding : Option (List ℚ)
  vectorIds : List String
  distances : List ℚ
deriving DecidableEq, Repr

/-- The Python exception `hybrid_search` can raise:
`query.split()[0]` with an empty token list raises `IndexError`
(src/rag_search_txt.py line 122). -/
inductive SearchError where
  | indexError
deriving DecidableEq, Repr

/-- The fusion weight (src/rag_search_txt.py line 112): `alpha = 0.6`. -/
def alpha : ℚ := 6/10

/-- The per-document fusion step of the loop body
(src/rag_search_txt.py lines 114-123): weighted sum
`k_score * alpha + v_score * (1 - alpha)`, then `+ 0.1` when the first
raw query token `w` occurs literally in the raw document text. -/
def entryScore (w doc : String) (kScore vScore : ℚ) : ℚ :=
  if strIn w doc then kScore * alpha + vScore * (1 - alpha) + 1/10
  else kScore * alpha + vScore * (1 - alpha)

/-- The score-combination loop (src/rag_search_txt.py lines 108-125).
The Python loop walks `enumerate(all_ids)` and indexes
`bm25_scores[i]` and `all_docs[i]`; under the collection's alignment
invariant (`ids`, `docs` and the score vector have equal length) this
is the zip below.  `query.split()[0]` is evaluated in the first
iteration: with at least one id and an empty token list it raises
`IndexError`. -/
def fuseScores (query : String) (docs ids : List String) (kScores : List ℚ)
    (vmap : List (String × ℚ)) : Except SearchError (List (ℚ × String)) :=
  if ids.isEmpty then .ok []
  else
    match (pySplit query).head? with
    | none => .error .indexError
    | some w =>
        .ok (((ids.zip docs).zip kScores).map
          (fun p => (entryScore w p.1.2 p.2 (dictGet vmap p.1.1), p.1.2)))

/-- `vector_score_map` (src/rag_search_txt.py lines 98-103): for each
`(doc_id, dist)` of `zip(vector_ids, distances)`,
`score = 1 - dist / (max_dist + 0.0001)`. -/
def vectorScoreMap (vectorIds : List String) (distances : List ℚ) :
    List (String × ℚ) :=
  (vectorIds.zip distances).map
    (fun p => (p.1, 1 - p.2 / (maxDistance distances + 1/10000)))

/-- The normalized sparse score vector of the pipeline
(src/rag_search_txt.py lines 66-74). -/
def sparseNorm (rlog : ℚ → ℚ) (inp : SearchInputs) (query : String) : List ℚ :=
  normalizeSparse
    (bm25GetScores rlog (inp.docs.map simple_tokenize) (simple_tokenize query))

/-- The comparison of `final_scores.sort(key=lambda x: x[0], reverse=True)`
(src/rag_search_txt.py line 128).  CPython's sort is stable and
`reverse=True` keeps equal keys in original order, which is exactly
`List.mergeSort` with this comparison. -/
def leScore (a b : ℚ × String) : Bool :=
  decide (b.1 ≤ a.1)

/-- `hybrid_search` (src/rag_search_txt.py lines 47-131).  Empty corpus
→ `[]`; falsy query embedding → `[]`; otherwise fuse, sort by score
descending (stable) and keep the texts of the first `k` pairs. -/
def hybrid_search (rlog : ℚ → ℚ) (inp : SearchInputs) (query : String)
    (k : ℕ) : Except SearchError (List String) :=
  if inp.docs.isEmpty then .ok []
  else if pyFalsy inp.queryEmbedding then .ok []
  else
    match fuseScores query inp.docs inp.ids (sparseNorm rlog inp query)
        (vectorScoreMap inp.vectorIds inp.distances) with
    | .error e => .error e
    | .ok final => .ok (((final.mergeSort leScore).take k).map (fun p => p.2))

/-- The message `run_rag` returns when `hybrid_search` came back empty
(src/rag_search_txt.py line 147). -/
def NO_DOCS_MSG : String := "관련 문서를 찾지 못했습니다."

/-- The result dispatch of `run_rag` after the search
(src/rag_search_txt.py lines 144-173): an empty document list yields
the fixed no-documents message; otherwise the Gemini call (abstracted
as `llm`, an external collaborator) answers, its exception being mapped
to an error string. -/
def run_rag_reply (topDocs : List String) (llm : Except String String) : String :=
  if topDocs.isEmpty then NO_DOCS_MSG
  else
    match llm with
    | .ok t => t
    | .error e => "Gemini API 오류: " ++ e

/-! Helper lemmas. -/

theorem init_le_foldl_max (l : List ℚ) (a : ℚ) : a ≤ l.foldl max a := by
  induction l generalizing a with
  | nil => exact le_refl a
  | cons x t ih => exact le_trans (le_max_left a x) (ih (max a x))

theorem mem_le_foldl_max (l : List ℚ) (a x : ℚ) (hx : x ∈ l) :
    x ≤ l.foldl max a := by
  induction l generalizing a with
  | nil => cases hx
  | cons y t ih =>
      rcases List.mem_cons.mp hx with h | h
      · subst h
        exact le_trans (le_max_right a x) (init_le_foldl_max t (max a x))
      · exact ih (max a y) h

theorem foldl_max_le_bound (l : List ℚ) (a b : ℚ) (ha : a ≤ b)
    (h : ∀ x ∈ l, x ≤ b) : l.foldl max a ≤ b := by
  induction l generalizing a with
  | nil => exact ha
  | cons y t ih =>
      exact ih (max a y) (max_le ha (h y (List.mem_cons_self y t)))
        (fun x hx => h x (List.mem_cons_of_mem y hx))

theorem le_maxDistance {ds : List ℚ} {d : ℚ} (h : d ∈ ds) :
    d ≤ maxDistance ds := by
  cases ds with
  | nil => cases h
  | cons a t =>
      rcases List.mem_cons.mp h with h | h
      · subst h; exact init_le_foldl_max t d
      · exact mem_le_foldl_max t a d h

theorem npMax_eq_zero_of_all_zero {l : List ℚ} (h : ∀ x ∈ l, x = 0) :
    npMax l = 0 := by
  cases l with
  | nil => rfl
  | cons a t =>
      have ha : a = 0 := h a (List.mem_cons_self a t)
      have h1 : t.foldl max a ≤ 0 :=
        foldl_max_le_bound t a 0 (le_of_eq ha)
          (fun x hx => le_of_eq (h x (List.mem_cons_of_mem a hx)))
      have h2 : (0 : ℚ) ≤ t.foldl max a := ha ▸ init_le_foldl_max t a
      exact le_antisymm h1 h2

theorem normalizeSparse_length (s : List ℚ) :
    (normalizeSparse s).length = s.length := by
  unfold normalizeSparse
  split <;> simp

theorem bm25GetScores_length (rlog : ℚ → ℚ) (c : List (List String))
    (q : List String) : (bm25GetScores rlog c q).length = c.length := by
  simp [bm25GetScores]

theorem sparseNorm_length (rlog : ℚ → ℚ) (inp : SearchInputs) (query : String) :
    (sparseNorm rlog inp query).length = inp.docs.length := by
  simp [sparseNorm, normalizeSparse_length, bm25GetScores_length]

theorem leScore_trans (a b c : ℚ × String) :
    leScore a b → leScore b c → leScore a c := by
  simp only [leScore, decide_eq_true_eq]
  exact fun h1 h2 => le_trans h2 h1

theorem leScore_total (a b : ℚ × String) : leScore a b || leScore b a := by
  simp only [leScore]
  rcases le_total a.1 b.1 with h | h <;> simp [h]

theorem fuseScores_ok {query : String} {docs ids : List String}
    {kScores : List ℚ} {vmap : List (String × ℚ)} {w : String}
    (hw : (pySplit query).head? = some w) :
    fuseScores query docs ids kScores vmap =
      .ok (((ids.zip docs).zip kScores).map
        (fun p => (entryScore w p.1.2 p.2 (dictGet vmap p.1.1), p.1.2))) := by
  unfold fuseScores
  rw [hw]
  split
  · rename_i hids
    simp [List.isEmpty_iff.mp hids]
  · rfl

theorem fused_map_snd {docs ids : List String} {kScores : List ℚ}
    {w : String} {vmap : List (String × ℚ)}
    (h1 : ids.length = docs.length) (h2 : kScores.length = docs.length) :
    ((((ids.zip docs).zip kScores).map
      (fun p => (entryScore w p.1.2 p.2 (dictGet vmap p.1.1), p.1.2))).map
        (fun p => p.2)) = docs := by
  rw [List.map_map]
  have hz : (ids.zip docs).length = docs.length := by
    simp [List.length_zip, h1]
  have : ((ids.zip docs).zip kScores).map (fun p => p.1) = ids.zip docs :=
    List.map_fst_zip _ _ (by omega)
  calc ((ids.zip docs).zip kScores).map ((fun p => p.2) ∘
        (fun p => (entryScore w p.1.2 p.2 (dictGet vmap p.1.1), p.1.2)))
      = (((ids.zip docs).zip kScores).map (fun p => p.1)).map (fun p => p.2) := by
        rw [List.map_map]; rfl
    _ = (ids.zip docs).map (fun p => p.2) := by rw [this]
    _ = docs := List.map_snd_zip _ _ (le_of_eq h1.symm)

/-- C7: for an empty corpus snapshot, `hybrid_search` returns the empty
result without failing, for every query and every `k`; the end user then
gets the ordinary no-documents message, not an error. -/
theorem empty_corpus_empty_result (rlog : ℚ → ℚ) (inp : SearchInputs)
    (query : String) (k : ℕ) (h : inp.docs = []) :
    hybrid_search rlog inp query k = .ok [] ∧
      (∀ llm : Except String String, run_rag_reply [] llm = NO_DOCS_MSG) := by
  constructor
  · unfold hybrid_search
    rw [h]
    rfl
  · intro llm
    rfl

theorem empty_corpus_empty_result_witness :
    hybrid_search (fun x => x) ⟨[], [], some [1], [], []⟩ "오민식 통계학" 7 = .ok [] ∧
      (∀ llm : Except String String, run_rag_reply [] llm = NO_DOCS_MSG) :=
  empty_corpus_empty_result (fun x => x) ⟨[], [], some [1], [], []⟩ "오민식 통계학" 7 rfl

/-- C8: the per-document fused score is monotonically non-decreasing in
the sparse-normalized input holding the dense input fixed, and in the
dense input holding the sparse input fixed; the boost term does not
depend on either input. -/
theorem fused_score_monotone (w doc : String) (s s' v v' : ℚ)
    (hs : s ≤ s') (hv : v ≤ v') :
    entryScore w doc s v ≤ entryScore w doc s' v ∧
      entryScore w doc s v ≤ entryScore w doc s v' := by
  unfold entryScore alpha
  constructor
  · split <;> nlinarith
  · split <;> nlinarith

theorem fused_score_monotone_witness :
    (1 : ℚ)/2 ≤ 3/4 ∧ (0 : ℚ) ≤ 1 ∧
      (entryScore "a" "a b" (1/2) 0 ≤ entryScore "a" "a b" (3/4) 0 ∧
        entryScore "a" "a b" (1/2) 0 ≤ entryScore "a" "a b" (1/2) 1) :=
  ⟨by norm_num, by norm_num,
    fused_score_monotone "a" "a b" (1/2) (3/4) 0 1 (by norm_num) (by norm_num)⟩

/-- C6: sparse normalization divides every entry by the vector's
maximum and skips the division when the maximum is zero; in particular,
when every raw BM25 score is zero the normalized scores are all zero
and no division by zero is performed. -/
theorem sparse_normalization_safe (scores : List ℚ) :
    normalizeSparse scores =
      (if 0 < npMax scores then scores.map (fun x => x / npMax scores)
       else scores) ∧
    ((∀ x ∈ scores, x = 0) →
      normalizeSparse scores = scores ∧
        ∀ x ∈ normalizeSparse scores, x = 0) := by
  refine ⟨rfl, fun h => ?_⟩
  have hm : npMax scores = 0 := npMax_eq_zero_of_all_zero h
  have : normalizeSparse scores = scores := by
    unfold normalizeSparse
    rw [hm]
    simp
  exact ⟨this, fun x hx => h x (this ▸ hx)⟩

theorem sparse_normalization_safe_witness :
    (normalizeSparse [0, 0, 0] =
      (if 0 < npMax [0, 0, 0] then [0, 0, 0].map (fun x => x / npMax [0, 0, 0])
       else [0, 0, 0]) ∧
      (normalizeSparse [0, 0, 0] = [0, 0, 0] ∧
        ∀ x ∈ normalizeSparse [0, 0, 0], x = 0)) :=
  ⟨(sparse_normalization_safe [0, 0, 0]).1,
    (sparse_normalization_safe [0, 0, 0]).2 (by decide)⟩

/-- C9: on a non-empty (aligned) corpus snapshot, with a usable query
embedding, a query that is empty or whitespace-only tokenizes to the
empty list, and `hybrid_search` raises `IndexError` at the boost check
`query.split()[0]` instead of returning a ranked result. -/
theorem whitespace_query_index_error (rlog : ℚ → ℚ) (inp : SearchInputs)
    (query : String) (k : ℕ) (hne : inp.docs ≠ [])
    (hlen : inp.ids.length = inp.docs.length)
    (hemb : pyFalsy inp.queryEmbedding = false)
    (hq : pySplit query = []) :
    hybrid_search rlog inp query k = .error .indexError := by
  have hids : inp.ids ≠ [] := by
    intro h
    exact hne (List.eq_nil_of_length_eq_zero (by rw [← hlen, h]; rfl))
  unfold hybrid_search
  rw [if_neg (by simpa using hne), hemb]
  have hfe : fuseScores query inp.docs inp.ids (sparseNorm rlog inp query)
      (vectorScoreMap inp.vectorIds inp.distances) = .error .indexError := by
    unfold fuseScores
    rw [if_neg (by simpa using hids), hq]
    rfl
  rw [hfe]
  rfl

theorem whitespace_query_index_error_witness :
    (SearchInputs.mk ["a b", "c d"] ["d1", "d2"] (some [1]) ["d1", "d2"] [0, 2]).docs ≠ [] ∧
      pySplit "   " = [] ∧
      hybrid_search (fun x => x)
        ⟨["a b", "c d"], ["d1", "d2"], some [1], ["d1", "d2"], [0, 2]⟩ "   " 7 =
        .error .indexError :=
  ⟨by decide, by decide,
    whitespace_query_index_error (fun x => x)
      ⟨["a b", "c d"], ["d1", "d2"], some [1], ["d1", "d2"], [0, 2]⟩ "   " 7
      (by decide) (by decide) (by decide) (by decide)⟩

/-- C5 counterexample: the claim asserts the caller can distinguish an
embedding failure from "no relevant documents found".  At these concrete
inputs the corpus is non-empty but the embedding provider failed
(`queryEmbedding = none`), yet `hybrid_search` returns exactly the same
value `.ok []` as for an empty corpus, and `run_rag` then returns the
same no-documents message in both cases: the outcomes are not
distinguishable by the caller. -/
theorem embedding_failure_indistinguishable :
    hybrid_search (fun x => x)
        ⟨["통계학 개론 오민식 교수"], ["d1"], none, [], []⟩ "오민식 통계학" 7 =
      hybrid_search (fun x => x) ⟨[], [], some [1], [], []⟩ "오민식 통계학" 7 ∧
    hybrid_search (fun x => x)
        ⟨["통계학 개론 오민식 교수"], ["d1"], none, [], []⟩ "오민식 통계학" 7 = .ok [] ∧
    (∀ llm : Except String String, run_rag_reply [] llm = NO_DOCS_MSG) := by
  refine ⟨?_, ?_, fun llm => rfl⟩ <;> rfl

/-- C5 amended: a missing or failed query embedding makes
`hybrid_search` return the empty result (no exception), and `run_rag`
maps that empty result to the same fixed no-documents message as a
genuinely empty outcome — the cause is only printed to the log, not
reported to the caller as a distinct signal. -/
theorem embedding_failure_empty_result (rlog : ℚ → ℚ) (inp : SearchInputs)
    (query : String) (k : ℕ) (h : pyFalsy inp.queryEmbedding = true) :
    hybrid_search rlog inp query k = .ok [] ∧
      (∀ llm : Except String String, run_rag_reply [] llm = NO_DOCS_MSG) := by
  constructor
  · unfold hybrid_search
    rw [h]
    split <;> rfl
  · intro llm
    rfl

theorem embedding_failure_empty_result_witness :
    pyFalsy (SearchInputs.mk ["통계학 개론 오민식 교수"] ["d1"] none [] []).queryEmbedding = true ∧
      hybrid_search (fun x => x)
        ⟨["통계학 개론 오민식 교수"], ["d1"], none, [], []⟩ "오민식 통계학" 7 = .ok [] ∧
      (∀ llm : Except String String, run_rag_reply [] llm = NO_DOCS_MSG) :=
  ⟨rfl, embedding_failure_empty_result (fun x => x)
    ⟨["통계학 개론 오민식 교수"], ["d1"], none, [], []⟩ "오민식 통계학" 7 rfl⟩

/-- C4: each entry of the dense score map equals
`1 - distance / (max_distance + 1e-4)` for that document's distance,
with `max_distance` the maximum distance of the snapshot; for
non-negative distances every dense score lies in `[0, 1]`, and a
zero-distance (closest possible) document scores exactly `1`. -/
theorem dense_score_formula (ids : List String) (ds : List ℚ)
    (hd : ∀ d ∈ ds, 0 ≤ d) (i : ℕ) (hii : i < ids.length)
    (hid : i < ds.length) :
    ∃ hv : i < (vectorScoreMap ids ds).length,
      ((vectorScoreMap ids ds).get ⟨i, hv⟩).1 = ids.get ⟨i, hii⟩ ∧
      ((vectorScoreMap ids ds).get ⟨i, hv⟩).2 =
        1 - ds.get ⟨i, hid⟩ / (maxDistance ds + 1/10000) ∧
      0 ≤ ((vectorScoreMap ids ds).get ⟨i, hv⟩).2 ∧
      ((vectorScoreMap ids ds).get ⟨i, hv⟩).2 ≤ 1 ∧
      (ds.get ⟨i, hid⟩ = 0 → ((vectorScoreMap ids ds).get ⟨i, hv⟩).2 = 1) := by
  have hv : i < (vectorScoreMap ids ds).length := by
    simp [vectorScoreMap, List.length_zip]
    omega
  refine ⟨hv, ?_⟩
  have hget : (vectorScoreMap ids ds).get ⟨i, hv⟩ =
      (ids.get ⟨i, hii⟩, 1 - ds.get ⟨i, hid⟩ / (maxDistance ds + 1/10000)) := by
    simp [vectorScoreMap, List.get_eq_getElem]
  rw [hget]
  have hdm : ds.get ⟨i, hid⟩ ∈ ds := List.get_mem ds i hid
  have h0 : 0 ≤ ds.get ⟨i, hid⟩ := hd _ hdm
  have hle : ds.get ⟨i, hid⟩ ≤ maxDistance ds := le_maxDistance hdm
  have hpos : 0 < maxDistance ds + 1/10000 := by linarith
  refine ⟨rfl, rfl, ?_, ?_, ?_⟩
  · have : ds.get ⟨i, hid⟩ / (maxDistance ds + 1/10000) ≤ 1 :=
      (div_le_one hpos).mpr (by linarith)
    linarith
  · have : 0 ≤ ds.get ⟨i, hid⟩ / (maxDistance ds + 1/10000) :=
      div_nonneg h0 (le_of_lt hpos)
    linarith
  · intro hz
    rw [hz, zero_div, sub_zero]

/-- C3: when the first whitespace-delimited token `w` of the raw query
occurs as a literal substring of the raw document text, the fused score
is exactly the pre-boost weighted sum plus the fixed bonus `0.1`, hence
strictly exceeds the score without the boost; and the boosted score can
exceed `1` for attainable normalized inputs. -/
theorem boost_strict_increase (query w doc : String)
    (_hw : (pySplit query).head? = some w) (hb : strIn w doc = true)
    (s v : ℚ) :
    entryScore w doc s v = (s * alpha + v * (1 - alpha)) + 1/10 ∧
    s * alpha + v * (1 - alpha) < entryScore w doc s v ∧
    (∃ s2 v2 : ℚ, 0 ≤ s2 ∧ s2 ≤ 1 ∧ 0 ≤ v2 ∧ v2 ≤ 1 ∧
      1 < entryScore w doc s2 v2) := by
  have he : entryScore w doc s v = (s * alpha + v * (1 - alpha)) + 1/10 := by
    unfold entryScore
    rw [if_pos hb]
  refine ⟨he, by rw [he]; linarith, 1, 1, by norm_num, by norm_num, by norm_num, by norm_num, ?_⟩
  unfold entryScore alpha
  rw [if_pos hb]
  norm_num

theorem boost_strict_increase_witness :
    (pySplit "오민식 통계학").head? = some "오민식" ∧
    strIn "오민식" "통계학 개론 오민식 교수" = true ∧
    (entryScore "오민식" "통계학 개론 오민식 교수" (1/2) (1/3) =
        ((1/2) * alpha + (1/3) * (1 - alpha)) + 1/10 ∧
      (1/2) * alpha + (1/3) * (1 - alpha) <
        entryScore "오민식" "통계학 개론 오민식 교수" (1/2) (1/3) ∧
      (∃ s2 v2 : ℚ, 0 ≤ s2 ∧ s2 ≤ 1 ∧ 0 ≤ v2 ∧ v2 ≤ 1 ∧
        1 < entryScore "오민식" "통계학 개론 오민식 교수" s2 v2)) :=
  ⟨by decide, by decide,
    boost_strict_increase "오민식 통계학" "오민식" "통계학 개론 오민식 교수"
      (by decide) (by decide) (1/2) (1/3)⟩

/-- C1: `alpha` is the fixed weight `0.6` (which lies in `[0, 1]`), and
each entry of the fused list carries, before the boost step, the score
`alpha * sparse_norm[i] + (1 - alpha) * dense_norm[i]`, where
`sparse_norm` is the max-normalized BM25 vector and `dense_norm[i]` is
the dense score looked up for document `i`'s id. -/
theorem fused_formula_before_boost (rlog : ℚ → ℚ) (inp : SearchInputs)
    (query w : String) (hw : (pySplit query).head? = some w)
    (hlen : inp.ids.length = inp.docs.length)
    (i : ℕ) (hi : i < inp.docs.length) :
    alpha = 6/10 ∧ 0 ≤ alpha ∧ alpha ≤ 1 ∧
    ∃ final : List (ℚ × String),
      fuseScores query inp.docs inp.ids (sparseNorm rlog inp query)
          (vectorScoreMap inp.vectorIds inp.distances) = .ok final ∧
      final.length = inp.docs.length ∧
      final.getD i (0, "") =
        (let s := (sparseNorm rlog inp query).getD i 0
         let d := dictGet (vectorScoreMap inp.vectorIds inp.distances)
           (inp.ids.getD i "")
         let pre := alpha * s + (1 - alpha) * d
         ((if strIn w (inp.docs.getD i "") then pre + 1/10 else pre),
           inp.docs.getD i "")) := by
  refine ⟨rfl, by norm_num [alpha], by norm_num [alpha], ?_⟩
  have hks := sparseNorm_length rlog inp query
  refine ⟨_, fuseScores_ok hw, ?_, ?_⟩
  · simp [List.length_zip, hlen, hks]
  · have hzl : i < (((inp.ids.zip inp.docs).zip (sparseNorm rlog inp query)).map
        (fun p => (entryScore w p.1.2 p.2
          (dictGet (vectorScoreMap inp.vectorIds inp.distances) p.1.1), p.1.2))).length := by
      simp [List.length_zip, hlen, hks]
      omega
    have hii : i < inp.ids.length := by omega
    have hks' : i < (sparseNorm rlog inp query).length := by omega
    simp only [List.getD_eq_getElem?_getD, List.getElem?_eq_getElem hzl,
      List.getElem?_eq_getElem hks', List.getElem?_eq_getElem hii,
      List.getElem?_eq_getElem hi, Option.getD_some,
      List.getElem_map, List.getElem_zip]
    unfold entryScore
    split <;> rw [Prod.mk.injEq] <;> exact ⟨by ring, rfl⟩

theorem fuseScores_ok_inv {query : String} {docs ids : List String}
    {kScores : List ℚ} {vmap : List (String × ℚ)} {final : List (ℚ × String)}
    (hids : ids ≠ [])
    (hf : fuseScores query docs ids kScores vmap = .ok final) :
    ∃ w, (pySplit query).head? = some w := by
  unfold fuseScores at hf
  rw [if_neg (by simpa using hids)] at hf
  cases hq : (pySplit query).head? with
  | none => rw [hq] at hf; cases hf
  | some w => exact ⟨w, rfl⟩

theorem enum_sort_pairwise_lex (final : List (ℚ × String)) :
    (List.mergeSort final.enum (List.enumLE leScore)).Pairwise
      (fun a b => b.2.1 < a.2.1 ∨ (a.2.1 = b.2.1 ∧ a.1 < b.1)) := by
  have hsor : (List.mergeSort final.enum (List.enumLE leScore)).Pairwise
      (fun a b => List.enumLE leScore a b) :=
    List.sorted_mergeSort
      (fun a b c => List.enumLE_trans (fun x y z => leScore_trans x y z) a b c)
      (fun a b => List.enumLE_total (fun x y => leScore_total x y) a b)
      final.enum
  have hperm := List.mergeSort_perm final.enum (List.enumLE leScore)
  have hmapperm : ((List.mergeSort final.enum (List.enumLE leScore)).map Prod.fst).Perm
      (final.enum.map Prod.fst) := hperm.map Prod.fst
  have hnodup : ((List.mergeSort final.enum (List.enumLE leScore)).map Prod.fst).Nodup := by
    rw [hmapperm.nodup_iff, List.enum_map_fst]
    exact List.nodup_range _
  have hne : (List.mergeSort final.enum (List.enumLE leScore)).Pairwise
      (fun a b => a.1 ≠ b.1) := by
    have := (List.pairwise_map (l := List.mergeSort final.enum (List.enumLE leScore))
      (f := Prod.fst)).mp hnodup
    exact this
  refine (hsor.and hne).imp ?_
  rintro ⟨i, x⟩ ⟨j, y⟩ ⟨h1, h2⟩
  simp only [List.enumLE, leScore] at h1
  by_cases hxy : y.1 ≤ x.1
  · by_cases hyx : x.1 ≤ y.1
    · rw [if_pos (decide_eq_true hxy), if_pos (decide_eq_true hyx)] at h1
      right
      exact ⟨le_antisymm hyx hxy,
        lt_of_le_of_ne (by simpa using h1) (fun hij => h2 (by simpa using hij))⟩
    · exact Or.inl (lt_of_not_le hyx)
  · rw [if_neg (by simpa using hxy)] at h1
    cases h1

/-- C2: `hybrid_search` sorts the fused pairs by score descending with
a stable tie-break (the sort equals the index-decorated sort whose order
is strictly descending score, ties by increasing original position) and
truncates to `k`; for `k ≥` corpus size the result is a permutation of
the whole document list: fully ordered, no duplicates, no omissions. -/
theorem sort_truncate_correct (rlog : ℚ → ℚ) (inp : SearchInputs)
    (query : String) (k : ℕ) (hne : inp.docs ≠ [])
    (hemb : pyFalsy inp.queryEmbedding = false)
    (hlen : inp.ids.length = inp.docs.length)
    (final : List (ℚ × String))
    (hf : fuseScores query inp.docs inp.ids (sparseNorm rlog inp query)
        (vectorScoreMap inp.vectorIds inp.distances) = .ok final) :
    hybrid_search rlog inp query k =
        .ok (((final.mergeSort leScore).take k).map (fun p => p.2)) ∧
    (final.mergeSort leScore).Perm final ∧
    (final.mergeSort leScore).Pairwise (fun a b => b.1 ≤ a.1) ∧
    final.mergeSort leScore =
      (List.mergeSort final.enum (List.enumLE leScore)).map (fun p => p.2) ∧
    (List.mergeSort final.enum (List.enumLE leScore)).Pairwise
      (fun a b => b.2.1 < a.2.1 ∨ (a.2.1 = b.2.1 ∧ a.1 < b.1)) ∧
    (inp.docs.length ≤ k →
      ∀ res, hybrid_search rlog inp query k = .ok res → res.Perm inp.docs) := by
  have hsearch : hybrid_search rlog inp query k =
      .ok (((final.mergeSort leScore).take k).map (fun p => p.2)) := by
    unfold hybrid_search
    rw [if_neg (by simpa using hne), hemb, hf]
    rfl
  have hids : inp.ids ≠ [] := by
    intro h
    exact hne (List.eq_nil_of_length_eq_zero (by rw [← hlen, h]; rfl))
  obtain ⟨w, hw⟩ := fuseScores_ok_inv hids hf
  have hfinal : final = ((inp.ids.zip inp.docs).zip (sparseNorm rlog inp query)).map
      (fun p => (entryScore w p.1.2 p.2
        (dictGet (vectorScoreMap inp.vectorIds inp.distances) p.1.1), p.1.2)) := by
    have := hf.symm.trans (fuseScores_ok hw)
    exact Except.ok.inj this
  have hflen : final.length = inp.docs.length := by
    rw [hfinal]
    simp [List.length_zip, hlen, sparseNorm_length]
  have hmsnd : final.map (fun p => p.2) = inp.docs := by
    rw [hfinal]
    exact fused_map_snd hlen (sparseNorm_length rlog inp query)
  refine ⟨hsearch, List.mergeSort_perm final leScore, ?_, ?_,
    enum_sort_pairwise_lex final, ?_⟩
  · exact (List.sorted_mergeSort (fun a b c => leScore_trans a b c)
      (fun a b => leScore_total a b) final).imp
      (fun h => by simpa [leScore] using h)
  · exact List.mergeSort_enum.symm
  · intro hk res hres
    have hx : ((final.mergeSort leScore).take k).map (fun p => p.2) = res :=
      Except.ok.inj (hsearch.symm.trans hres)
    have htake : (final.mergeSort leScore).take k = final.mergeSort leScore :=
      List.take_of_length_le (by rw [List.length_mergeSort, hflen]; exact hk)
    rw [htake] at hx
    subst hx
    have hp : ((final.mergeSort leScore).map (fun p => p.2)).Perm
        (final.map (fun p => p.2)) :=
      (List.mergeSort_perm final leScore).map (fun p => p.2)
    rw [hmsnd] at hp
    exact hp


theorem sort_truncate_correct_witness :
    (SearchInputs.mk ["a"] ["d1"] (some [1]) ["d1"] [0]).docs ≠ [] ∧
    pyFalsy (some [1]) = false ∧
    fuseScores "a" ["a"] ["d1"]
        (sparseNorm (fun x => x) ⟨["a"], ["d1"], some [1], ["d1"], [0]⟩ "a")
        (vectorScoreMap ["d1"] [0]) = .ok [((7:ℚ)/20, "a")] ∧
    (hybrid_search (fun x => x) ⟨["a"], ["d1"], some [1], ["d1"], [0]⟩ "a" 3 =
        .ok ((([((7:ℚ)/20, "a")].mergeSort leScore).take 3).map (fun p => p.2)) ∧
      ([((7:ℚ)/20, "a")].mergeSort leScore).Perm [((7:ℚ)/20, "a")] ∧
      ([((7:ℚ)/20, "a")].mergeSort leScore).Pairwise (fun a b => b.1 ≤ a.1) ∧
      [((7:ℚ)/20, "a")].mergeSort leScore =
        (List.mergeSort ([((7:ℚ)/20, "a")].enum) (List.enumLE leScore)).map
          (fun p => p.2) ∧
      (List.mergeSort ([((7:ℚ)/20, "a")].enum) (List.enumLE leScore)).Pairwise
        (fun a b => b.2.1 < a.2.1 ∨ (a.2.1 = b.2.1 ∧ a.1 < b.1)) ∧
      ((["a"] : List String).length ≤ 3 →
        ∀ res, hybrid_search (fun x => x)
            ⟨["a"], ["d1"], some [1], ["d1"], [0]⟩ "a" 3 = .ok res →
          res.Perm ["a"])) := by
  have h1 : pySplit "a" = ["a"] := by decide
  have h2 : simple_tokenize "a" = ["a"] := by decide
  have h3 : strIn "a" "a" = true := by decide
  have h4 : (["a"] : List String).contains "a" = true := by decide
  have hf : fuseScores "a" ["a"] ["d1"]
      (sparseNorm (fun x => x) ⟨["a"], ["d1"], some [1], ["d1"], [0]⟩ "a")
      (vectorScoreMap ["d1"] [0]) = .ok [((7:ℚ)/20, "a")] := by
    norm_num [fuseScores, h1, h2, h3, h4, sparseNorm, normalizeSparse, npMax,
      bm25GetScores, bm25DocScore, bm25IdfOrZero, bm25Idf, bm25IdfRaw,
      bm25AvgIdf, bm25AvgDl, bm25Nd, bm25Vocab, vectorScoreMap, maxDistance,
      dictGet, entryScore, alpha, List.dedup, List.count, List.countP,
      List.countP.go]
  exact ⟨by decide, rfl, hf,
    sort_truncate_correct (fun x => x) ⟨["a"], ["d1"], some [1], ["d1"], [0]⟩
      "a" 3 (by decide) rfl rfl [((7:ℚ)/20, "a")] hf⟩

theorem fused_formula_before_boost_witness :
    (pySplit "오민식 통계학").head? = some "오민식" ∧
    (SearchInputs.mk ["통계학 개론 오민식 교수", "영어 회화"] ["d1", "d2"]
      (some [1]) ["d1", "d2"] [0, 1]).ids.length =
      (SearchInputs.mk ["통계학 개론 오민식 교수", "영어 회화"] ["d1", "d2"]
        (some [1]) ["d1", "d2"] [0, 1]).docs.length ∧
    (alpha = 6/10 ∧ 0 ≤ alpha ∧ alpha ≤ 1 ∧
      ∃ final : List (ℚ × String),
        fuseScores "오민식 통계학"
            (SearchInputs.mk ["통계학 개론 오민식 교수", "영어 회화"] ["d1", "d2"]
              (some [1]) ["d1", "d2"] [0, 1]).docs
            (SearchInputs.mk ["통계학 개론 오민식 교수", "영어 회화"] ["d1", "d2"]
              (some [1]) ["d1", "d2"] [0, 1]).ids
            (sparseNorm (fun x => x)
              ⟨["통계학 개론 오민식 교수", "영어 회화"], ["d1", "d2"], some [1],
                ["d1", "d2"], [0, 1]⟩ "오민식 통계학")
            (vectorScoreMap ["d1", "d2"] [0, 1]) = .ok final ∧
        final.length = 2 ∧
        final.getD 0 (0, "") =
          (let s := (sparseNorm (fun x => x)
              ⟨["통계학 개론 오민식 교수", "영어 회화"], ["d1", "d2"], some [1],
                ["d1", "d2"], [0, 1]⟩ "오민식 통계학").getD 0 0
           let d := dictGet (vectorScoreMap ["d1", "d2"] [0, 1]) "d1"
           let pre := alpha * s + (1 - alpha) * d
           ((if strIn "오민식" "통계학 개론 오민식 교수" then pre + 1/10 else pre),
             "통계학 개론 오민식 교수"))) :=
  ⟨by decide, rfl,
    fused_formula_before_boost (fun x => x)
      ⟨["통계학 개론 오민식 교수", "영어 회화"], ["d1", "d2"], some [1],
        ["d1", "d2"], [0, 1]⟩ "오민식 통계학" "오민식" (by decide) rfl 0 (by decide)⟩

theorem dense_score_formula_witness :
    (∀ d ∈ ([0, 2] : List ℚ), 0 ≤ d) ∧
    (∃ hv : 1 < (vectorScoreMap ["d1", "d2"] [0, 2]).length,
      ((vectorScoreMap ["d1", "d2"] [0, 2]).get ⟨1, hv⟩).1 =
        (["d1", "d2"] : List String).get ⟨1, by decide⟩ ∧
      ((vectorScoreMap ["d1", "d2"] [0, 2]).get ⟨1, hv⟩).2 =
        1 - ([0, 2] : List ℚ).get ⟨1, by decide⟩ /
          (maxDistance [0, 2] + 1/10000) ∧
      0 ≤ ((vectorScoreMap ["d1", "d2"] [0, 2]).get ⟨1, hv⟩).2 ∧
      ((vectorScoreMap ["d1", "d2"] [0, 2]).get ⟨1, hv⟩).2 ≤ 1 ∧
      (([0, 2] : List ℚ).get ⟨1, by decide⟩ = 0 →
        ((vectorScoreMap ["d1", "d2"] [0, 2]).get ⟨1, hv⟩).2 = 1)) :=
  ⟨by norm_num, dense_score_formula ["d1", "d2"] [0, 2] (by norm_num) 1
    (by decide) (by decide)⟩

/-- C10: the boost comparison is case-sensitive while sparse scoring is
case-insensitive.  Tokenization lowercases, so the queries "Hello" and
"hello" produce identical BM25 scores; on the corpus
`["hello world", "foo bar", "baz qux"]` the matching document receives
the full normalized sparse score `1` (for any strictly increasing model
of `math.log`), yet the raw first token "Hello" is not a substring of
the raw document text, so the boost is denied, while the lowercase
query "hello" would receive it. -/
theorem boost_case_sensitivity (rlog : ℚ → ℚ) (h : rlog (3/2) < rlog (5/2)) :
    simple_tokenize "Hello" = simple_tokenize "hello" ∧
    normalizeSparse (bm25GetScores rlog
        (["hello world", "foo bar", "baz qux"].map simple_tokenize)
        (simple_tokenize "Hello")) = [1, 0, 0] ∧
    strIn "Hello" "hello world" = false ∧
    strIn "hello" "hello world" = true := by
  have hpos : 0 < rlog (5/2) - rlog (3/2) := sub_pos.mpr h
  have hcorp : (["hello world", "foo bar", "baz qux"].map simple_tokenize) =
      [["hello", "world"], ["foo", "bar"], ["baz", "qux"]] := by decide
  have hq : simple_tokenize "Hello" = ["hello"] := by decide
  have hnd : bm25Nd [["hello", "world"], ["foo", "bar"], ["baz", "qux"]] "hello" = 1 := by
    decide
  have hcont : (bm25Vocab [["hello", "world"], ["foo", "bar"], ["baz", "qux"]]).contains "hello" = true := by
    decide
  have havg : bm25AvgDl [["hello", "world"], ["foo", "bar"], ["baz", "qux"]] = 2 := by
    norm_num [bm25AvgDl]
  have hidfraw : bm25IdfRaw rlog [["hello", "world"], ["foo", "bar"], ["baz", "qux"]] "hello" =
      rlog (5/2) - rlog (3/2) := by
    rw [bm25IdfRaw, hnd]
    norm_num
  have hidf : bm25IdfOrZero rlog [["hello", "world"], ["foo", "bar"], ["baz", "qux"]] "hello" =
      rlog (5/2) - rlog (3/2) := by
    rw [bm25IdfOrZero, if_pos hcont, bm25Idf, hidfraw, if_neg (by linarith)]
  have hc1 : (["hello", "world"] : List String).count "hello" = 1 := by decide
  have hc2 : (["foo", "bar"] : List String).count "hello" = 0 := by decide
  have hc3 : (["baz", "qux"] : List String).count "hello" = 0 := by decide
  have hraw : bm25GetScores rlog [["hello", "world"], ["foo", "bar"], ["baz", "qux"]] ["hello"] =
      [rlog (5/2) - rlog (3/2), 0, 0] := by
    simp only [bm25GetScores, List.map_cons, List.map_nil, bm25DocScore,
      List.sum_cons, List.sum_nil, hidf, havg, hc1, hc2, hc3]
    norm_num
  have hmax : npMax [rlog (5/2) - rlog (3/2), 0, 0] = rlog (5/2) - rlog (3/2) := by
    show [(0 : ℚ), 0].foldl max (rlog (5/2) - rlog (3/2)) = rlog (5/2) - rlog (3/2)
    simp [max_eq_left hpos.le]
  have hnorm : normalizeSparse [rlog (5/2) - rlog (3/2), 0, 0] = [1, 0, 0] := by
    rw [normalizeSparse, hmax, if_pos hpos]
    simp [div_self (ne_of_gt hpos)]
  exact ⟨by decide, by rw [hcorp, hq, hraw, hnorm], by decide, by decide⟩

theorem boost_case_sensitivity_witness :
    ((fun x : ℚ => x) (3/2) < (fun x : ℚ => x) (5/2)) ∧
    (simple_tokenize "Hello" = simple_tokenize "hello" ∧
      normalizeSparse (bm25GetScores (fun x : ℚ => x)
          (["hello world", "foo bar", "baz qux"].map simple_tokenize)
          (simple_tokenize "Hello")) = [1, 0, 0] ∧
      strIn "Hello" "hello world" = false ∧
      strIn "hello" "hello world" = true) :=
  ⟨by norm_num, boost_case_sensitivity (fun x => x) (by norm_num)⟩
